import Mathlib

/-!
Verification of the signal-conditioning core of the `dual_measurement_sensor`
integration (payload decoding, moving-average filter with publish gate, and
presence debounce/hold state machine), shallowly embedded from
`custom_components/dual_measurement_sensor/__init__.py`,
`ch1/custom_integration/dual_measurement_sensor/sensor.py` and
`custom_components/dual_measurement_sensor/binary_sensor.py`.
Numeric values (Python floats) are modelled as rationals, so arithmetic is
exact; timestamps are rationals as well.  The payload parsers first produce
an exact decimal representation (`DecNum`) that is converted to `ℚ` at the
decoder boundary.
-/

namespace DualMeasurement

/-- An exact decimal number `num * 10 ^ exp10`, the output representation of
the numeric payload parsers (a finite decimal literal always has this form). -/
structure DecNum where
  num : ℤ
  exp10 : ℤ
deriving DecidableEq, Repr

/-- The rational value of a parsed decimal number. -/
def toRat (d : DecNum) : ℚ := (d.num : ℚ) * (10 : ℚ) ^ d.exp10

/-- Whitespace stripped by Python `str.strip()` / skipped by `float()`. -/
def isPyWs (c : Char) : Bool :=
  c = ' ' || c = '\t' || c = '\n' || c = '\r' || c = '\x0b' || c = '\x0c'

/-- Model of Python `str.strip()` on a character list. -/
def pyTrim (cs : List Char) : List Char :=
  ((cs.dropWhile isPyWs).reverse.dropWhile isPyWs).reverse

/-- ASCII lower-casing of one character, as Python `str.lower()` does for the
ASCII range used by the presence payloads. -/
def charLower (c : Char) : Char :=
  if 65 ≤ c.toNat ∧ c.toNat ≤ 90 then Char.ofNat (c.toNat + 32) else c

/-- Model of Python `str.lower()` on a character list. -/
def pyLower (cs : List Char) : List Char := cs.map charLower

/-- Numeric value of a run of decimal digit characters. -/
def natOfDigits (ds : List Char) : ℕ :=
  ds.foldl (fun a c => 10 * a + (c.toNat - 48)) 0

/-- Parse a run of digits that must make up the WHOLE remaining input
(used for float exponents). -/
def parseAllDigits (cs : List Char) : Option ℕ :=
  if cs.isEmpty then none
  else if cs.all Char.isDigit then some (natOfDigits cs) else none

/-- Optionally signed digit run covering the whole remaining input. -/
def parseSignedDigits : List Char → Option ℤ
  | '-' :: r => (parseAllDigits r).map (fun n => -(n : ℤ))
  | '+' :: r => (parseAllDigits r).map (fun n => (n : ℤ))
  | r => (parseAllDigits r).map (fun n => (n : ℤ))

/-- The exponent suffix of a Python float literal: empty input means
exponent 0; otherwise `e`/`E` followed by an optionally signed digit run. -/
def parseExpSuffix : List Char → Option ℤ
  | [] => some 0
  | 'e' :: r => parseSignedDigits r
  | 'E' :: r => parseSignedDigits r
  | _ => none

/-- Mantissa of a float literal: digits, optionally a dot with more digits;
at least one digit must be present on one side of the dot.  Returns the
digit string's value, the number of fractional digits, and the unconsumed
rest of the input. -/
def parseMantissa (cs : List Char) : Option ((ℕ × ℕ) × List Char) :=
  let ip := cs.takeWhile Char.isDigit
  let cs1 := cs.dropWhile Char.isDigit
  match cs1 with
  | '.' :: r =>
    let fp := r.takeWhile Char.isDigit
    let cs2 := r.dropWhile Char.isDigit
    if ip.isEmpty && fp.isEmpty then none
    else some ((natOfDigits (ip ++ fp), fp.length), cs2)
  | _ =>
    if ip.isEmpty then none else some ((natOfDigits ip, 0), cs1)

/-- Model of Python `float(s)` on a character list, restricted to finite
decimal literals: surrounding whitespace, an optional sign, a decimal
mantissa and an optional exponent (the `inf`/`nan`/underscore forms, which
never yield a finite decimal, are outside the model and return `none`). -/
def pyFloatRepList? (cs0 : List Char) : Option DecNum :=
  let cs := pyTrim cs0
  let sgn : ℤ × List Char :=
    match cs with
    | '-' :: r => (-1, r)
    | '+' :: r => (1, r)
    | _ => (1, cs)
  match parseMantissa sgn.2 with
  | none => none
  | some ((m, fl), rest) =>
    match parseExpSuffix rest with
    | none => none
    | some e => some ⟨sgn.1 * (m : ℤ), e - (fl : ℤ)⟩

/-- Exact decimal representation of Python `float(s)` on a string. -/
def pyFloatRep? (s : String) : Option DecNum := pyFloatRepList? s.data

/-- Rational value of Python `float(s)` on a string, `none` when `float`
raises `ValueError`. -/
def pyFloat? (s : String) : Option ℚ := (pyFloatRep? s).map toRat

/-- JSON values as produced by `json.loads`: `null`, booleans, numbers
(kept in exact decimal representation), strings, arrays, and objects
(association lists in textual order). -/
inductive Json where
  | null : Json
  | bool (b : Bool) : Json
  | num (d : DecNum) : Json
  | str (s : String) : Json
  | arr (elems : List Json) : Json
  | obj (fields : List (String × Json)) : Json
deriving Repr

/-- Key lookup in a decoded JSON object, returning the value of the LAST
binding of the key, matching how `json.loads` builds a Python dict
(later duplicate keys overwrite earlier ones).  `none` models
`part not in cur`. -/
def jget (fields : List (String × Json)) (k : String) : Option Json :=
  fields.foldl (fun acc p => if p.1 = k then some p.2 else acc) none

/-- Skip JSON whitespace. -/
def skipWs : List Char → List Char
  | c :: r => if c = ' ' || c = '\t' || c = '\n' || c = '\r' then skipWs r else c :: r
  | [] => []

/-- Value of one hexadecimal digit. -/
def hexVal (c : Char) : Option ℕ :=
  if '0' ≤ c ∧ c ≤ '9' then some (c.toNat - 48)
  else if 'a' ≤ c ∧ c ≤ 'f' then some (c.toNat - 87)
  else if 'A' ≤ c ∧ c ≤ 'F' then some (c.toNat - 55)
  else none

/-- Body of a JSON string after the opening quote: collects characters
(processing the standard escapes) until the closing quote, returning the
string and the unconsumed rest. -/
def parseJStringAux (acc : List Char) : List Char → Option (String × List Char)
  | [] => none
  | c :: r =>
    if c = '"' then some (String.mk acc.reverse, r)
    else if c = '\\' then
      match r with
      | [] => none
      | e :: r2 =>
        if e = '"' then parseJStringAux ('"' :: acc) r2
        else if e = '\\' then parseJStringAux ('\\' :: acc) r2
        else if e = '/' then parseJStringAux ('/' :: acc) r2
        else if e = 'b' then parseJStringAux ('\x08' :: acc) r2
        else if e = 'f' then parseJStringAux ('\x0c' :: acc) r2
        else if e = 'n' then parseJStringAux ('\n' :: acc) r2
        else if e = 'r' then parseJStringAux ('\r' :: acc) r2
        else if e = 't' then parseJStringAux ('\t' :: acc) r2
        else if e = 'u' then
          match r2 with
          | a :: b :: c2 :: d :: r3 =>
            match hexVal a, hexVal b, hexVal c2, hexVal d with
            | some ha, some hb, some hc, some hd =>
              parseJStringAux (Char.ofNat (((ha * 16 + hb) * 16 + hc) * 16 + hd) :: acc) r3
            | _, _, _, _ => none
          | _ => none
        else none
    else parseJStringAux (c :: acc) r

/-- A JSON number in exact decimal representation, with the unconsumed
rest of the input. -/
def parseJNumber (cs : List Char) : Option (DecNum × List Char) :=
  let sgn : ℤ × List Char :=
    match cs with
    | '-' :: r => (-1, r)
    | _ => (1, cs)
  match sgn.2 with
  | [] => none
  | c :: r =>
    if ¬ c.isDigit then none
    else
      let ip := if c = '0' then ['0'] else (c :: r).takeWhile Char.isDigit
      let cs1 := if c = '0' then r else (c :: r).dropWhile Char.isDigit
      let frac : Option (List Char × List Char) :=
        match cs1 with
        | '.' :: r2 =>
          let fp := r2.takeWhile Char.isDigit
          if fp.isEmpty then none else some (fp, r2.dropWhile Char.isDigit)
        | _ => some ([], cs1)
      match frac with
      | none => none
      | some (fp, cs2) =>
        match cs2 with
        | 'e' :: r3 | 'E' :: r3 =>
          let esgn : ℤ × List Char :=
            match r3 with
            | '-' :: r4 => (-1, r4)
            | '+' :: r4 => (1, r4)
            | _ => (1, r3)
          let ed := esgn.2.takeWhile Char.isDigit
          if ed.isEmpty then none
          else
            some (⟨sgn.1 * (natOfDigits (ip ++ fp) : ℤ),
                   esgn.1 * (natOfDigits ed : ℤ) - (fp.length : ℤ)⟩,
                  esgn.2.dropWhile Char.isDigit)
        | _ =>
          some (⟨sgn.1 * (natOfDigits (ip ++ fp) : ℤ), -(fp.length : ℤ)⟩, cs2)

/-- Parsing mode of the recursive-descent JSON parser: a single value, the
members of an object (with the fields parsed so far), or the elements of an
array (with the elements parsed so far). -/
inductive JMode where
  | val : JMode
  | mems (acc : List (String × Json)) : JMode
  | elts (acc : List Json) : JMode

/-- Fuel-indexed recursive-descent JSON parser (the fuel only serves
termination; `jsonLoads` supplies enough for any input). -/
def parseJ : ℕ → JMode → List Char → Option (Json × List Char)
  | 0, _, _ => none
  | fuel + 1, JMode.val, cs =>
    match skipWs cs with
    | [] => none
    | c :: r =>
      if c = '\x7b' then
        match skipWs r with
        | '\x7d' :: r2 => some (Json.obj [], r2)
        | _ => parseJ fuel (JMode.mems []) r
      else if c = '[' then
        match skipWs r with
        | ']' :: r2 => some (Json.arr [], r2)
        | _ => parseJ fuel (JMode.elts []) r
      else if c = '"' then
        (parseJStringAux [] r).map (fun p => (Json.str p.1, p.2))
      else if c = 't' then
        match r with
        | 'r' :: 'u' :: 'e' :: r2 => some (Json.bool true, r2)
        | _ => none
      else if c = 'f' then
        match r with
        | 'a' :: 'l' :: 's' :: 'e' :: r2 => some (Json.bool false, r2)
        | _ => none
      else if c = 'n' then
        match r with
        | 'u' :: 'l' :: 'l' :: r2 => some (Json.null, r2)
        | _ => none
      else
        (parseJNumber (c :: r)).map (fun p => (Json.num p.1, p.2))
  | fuel + 1, JMode.mems acc, cs =>
    match skipWs cs with
    | '"' :: r =>
      match parseJStringAux [] r with
      | none => none
      | some (k, r2) =>
        match skipWs r2 with
        | ':' :: r3 =>
          match parseJ fuel JMode.val r3 with
          | none => none
          | some (v, r4) =>
            match skipWs r4 with
            | ',' :: r5 => parseJ fuel (JMode.mems (acc ++ [(k, v)])) r5
            | '\x7d' :: r5 => some (Json.obj (acc ++ [(k, v)]), r5)
            | _ => none
        | _ => none
    | _ => none
  | fuel + 1, JMode.elts acc, cs =>
    match parseJ fuel JMode.val cs with
    | none => none
    | some (v, r) =>
      match skipWs r with
      | ',' :: r2 => parseJ fuel (JMode.elts (acc ++ [v])) r2
      | ']' :: r2 => some (Json.arr (acc ++ [v]), r2)
      | _ => none

/-- Model of Python `json.loads` on a character list: parse one JSON value
and require only whitespace after it; any error is folded into `none`
(the caller catches all exceptions). -/
def jsonLoads (cs : List Char) : Option Json :=
  match parseJ (2 * cs.length + 2) JMode.val cs with
  | none => none
  | some (j, rest) => if (skipWs rest).isEmpty then some j else none

/-- Split a character list at the dots, as Python `path.split(".")` does. -/
def splitDots : List Char → List (List Char)
  | [] => [[]]
  | c :: r =>
    match splitDots r with
    | [] => [[]]
    | h :: t => if c = '.' then [] :: h :: t else (c :: h) :: t

/-- The loop of `_extract_by_path`: walk the decoded JSON object through the
path segments; every segment must be a present key of a JSON object. -/
def extractWalk : Json → List (List Char) → Option Json
  | cur, [] => some cur
  | cur, p :: rest =>
    match cur with
    | Json.obj fields =>
      match jget fields (String.mk p) with
      | some v => extractWalk v rest
      | none => none
    | _ => none

/-- Model of `_extract_by_path` (`__init__.py` lines 78–87): get a nested
value from a decoded JSON object using a dot path; `none` for an empty
path, a missing key, or a non-object on the way. -/
def extract_by_path (obj : Json) (path : String) : Option Json :=
  if path.data.isEmpty then none
  else extractWalk obj (splitDots path.data)

/-- Model of Python `float(v)` applied to a `json.loads` result: numbers
map to themselves, strings are parsed as float literals, booleans map to
1/0; `None`, lists and dicts raise (`none`). -/
def pyFloatOfJson : Json → Option DecNum
  | Json.num d => some d
  | Json.str s => pyFloatRep? s
  | Json.bool b => some ⟨if b then 1 else 0, 0⟩
  | _ => none

/-- The numeric decode cascade of `_handle_temp` (`__init__.py` lines
104–126), in exact decimal representation: strip the payload, try a direct
float parse, then JSON with a top-level `"value"` key, then the configured
dot path.  A `float(obj["value"])` failure raises inside the `try:` block
and is caught by the blanket `except`, so the dot-path fallback is NOT
attempted in that case. -/
def decodeNumericRep (payload : String) (jsonPath : String) : Option DecNum :=
  let s := pyTrim payload.data
  match pyFloatRepList? s with
  | some v => some v
  | none =>
    match jsonLoads s with
    | none => none
    | some obj =>
      match obj with
      | Json.obj fields =>
        match jget fields ("value") with
        | some v => pyFloatOfJson v
        | none =>
          if jsonPath.data.isEmpty then none
          else
            match extract_by_path (Json.obj fields) jsonPath with
            | none => none
            | some Json.null => none
            | some v => pyFloatOfJson v
      | _ => none

/-- Rational value decoded from a temperature payload; `none` models the
`value is None` early return of `_handle_temp`. -/
def decodeNumeric (payload : String) (jsonPath : String) : Option ℚ :=
  (decodeNumericRep payload jsonPath).map toRat

/-- The presence payload test of `_handle_presence` (`__init__.py` line
149): lowercased stripped payload membership in `("1", "true", "on", "yes")`. -/
def decodePresenceBool (payload : String) : Bool :=
  let s := pyLower (pyTrim payload.data)
  s = ("1").data || s = ("true").data || s = ("on").data || s = ("yes").data

/-- The per-device mutable state of one config entry: the `filt` dict built
in `async_setup_entry` (`__init__.py` lines 52–64) together with the
entry-level `last_temp_avg`, the temperature entity's `_last_published`
(`sensor.py` line 38), and the `listeners` callback list (observers are
identified by the number they were registered with, in registration
order). -/
structure Session where
  temp_window : ℕ
  temp_min_delta : ℚ
  temp_samples : List ℚ
  last_temp_avg : Option ℚ
  last_published : Option ℚ
  presence_debounce_ms : ℚ
  presence_hold_ms : ℚ
  presence_state : Bool
  presence_last_on_ms : ℚ
  presence_last_change_ms : ℚ
  listeners : List ℕ

/-- `deque(maxlen).append`: append on the right and evict from the left
down to the capacity. -/
def dequeAppend (maxlen : ℕ) (xs : List ℚ) (v : ℚ) : List ℚ :=
  if maxlen < (xs ++ [v]).length then (xs ++ [v]).drop ((xs ++ [v]).length - maxlen)
  else xs ++ [v]

/-- `sum(samples) / len(samples)` (`__init__.py` line 133). -/
def meanOf (xs : List ℚ) : ℚ := xs.sum / (xs.length : ℚ)

/-- The publish gate of `DualTempSensor.native_value` (`sensor.py` lines
40–55): given the entity's remembered `_last_published`, the configured
min delta and the current smoothed average, return the value the property
yields together with the updated `_last_published`. -/
def nativeValueStep (lastPublished : Option ℚ) (minDelta : ℚ) (val : Option ℚ) :
    Option ℚ × Option ℚ :=
  match val with
  | none => (none, lastPublished)
  | some v =>
    match lastPublished with
    | none => (some v, some v)
    | some lp =>
      if |v - lp| ≥ minDelta then (some v, some v) else (some lp, some lp)

/-- One temperature ingest: the body of `_handle_temp` (`__init__.py` lines
100–137) composed with the publish gate the temperature entity applies when
its state is pushed (each listener callback re-reads `native_value`).
Returns the new session state and the list of observer callbacks invoked
(empty when the payload does not decode: the handler returns before
touching any state). -/
def ingestTemperature (st : Session) (payload : String) (jsonPath : String) :
    Session × List ℕ :=
  match decodeNumeric payload jsonPath with
  | none => (st, [])
  | some value =>
    let samples := dequeAppend st.temp_window st.temp_samples value
    let newAvg := meanOf samples
    ({ st with
        temp_samples := samples,
        last_temp_avg := some newAvg,
        last_published := (nativeValueStep st.last_published st.temp_min_delta (some newAvg)).2 },
     st.listeners)

/-- The presence debounce/hold state machine of `_handle_presence`
(`__init__.py` lines 154–167), on an already decoded reading `wantOn` and a
caller-supplied monotonic timestamp. -/
def ingestPresence (st : Session) (wantOn : Bool) (nowMs : ℚ) : Session :=
  if wantOn ≠ st.presence_state then
    if nowMs - st.presence_last_change_ms ≥ st.presence_debounce_ms then
      { st with
          presence_state := wantOn,
          presence_last_change_ms := nowMs,
          presence_last_on_ms := if wantOn then nowMs else st.presence_last_on_ms }
    else st
  else
    if st.presence_state = true ∧ nowMs - st.presence_last_on_ms ≥ st.presence_hold_ms then
      { st with presence_state := false, presence_last_change_ms := nowMs }
    else st

/-- The whole of `_handle_presence` (`__init__.py` lines 140–170): decode
the payload, run the debounce/hold machine, and unconditionally invoke
every listener callback. -/
def handle_presence (st : Session) (payload : String) (nowMs : ℚ) :
    Session × List ℕ :=
  (ingestPresence st (decodePresenceBool payload) nowMs, st.listeners)

/-- The sample buffer produced by feeding the decoded values `vals`, in
order, into an initially empty `deque(maxlen=w)`. -/
def runSamples (w : ℕ) (vals : List ℚ) : List ℚ :=
  vals.foldl (dequeAppend w) []

/-- The average a successful ingest of `v` computes from the session's
current buffer. -/
def newAvgOf (st : Session) (v : ℚ) : ℚ :=
  meanOf (dequeAppend st.temp_window st.temp_samples v)

/-- A freshly created session with the book's default presence knobs
(`debounceMillis = 300`, `holdMillis = 5000`), `windowSize = 3`,
`minDelta = 0.1`, and two registered observers. -/
def s0ex : Session :=
  { temp_window := 3
    temp_min_delta := 1/10
    temp_samples := []
    last_temp_avg := none
    last_published := none
    presence_debounce_ms := 300
    presence_hold_ms := 5000
    presence_state := false
    presence_last_on_ms := 0
    presence_last_change_ms := 0
    listeners := [0, 1] }

/-- The session after an accepted ON reading at t = 1000 ms. -/
def s1ex : Session :=
  { s0ex with
      presence_state := true
      presence_last_on_ms := 1000
      presence_last_change_ms := 1000 }

/-- A conflicting reading whose debounce window has elapsed is accepted:
state and change timestamp move, and the last-on timestamp moves exactly
when the new state is ON. -/
lemma ingestPresence_conflict_accept (st : Session) (wantOn : Bool) (now : ℚ)
    (hne : wantOn ≠ st.presence_state)
    (hd : st.presence_debounce_ms ≤ now - st.presence_last_change_ms) :
    ingestPresence st wantOn now =
      { st with
          presence_state := wantOn,
          presence_last_change_ms := now,
          presence_last_on_ms := if wantOn then now else st.presence_last_on_ms } := by
  unfold ingestPresence
  rw [if_pos hne, if_pos hd]

/-- A conflicting reading inside the debounce window is silently dropped. -/
lemma ingestPresence_conflict_drop (st : Session) (wantOn : Bool) (now : ℚ)
    (hne : wantOn ≠ st.presence_state)
    (hd : now - st.presence_last_change_ms < st.presence_debounce_ms) :
    ingestPresence st wantOn now = st := by
  unfold ingestPresence
  rw [if_pos hne, if_neg (not_le.mpr hd)]

/-- A matching ON reading before hold expiry leaves the session untouched. -/
lemma ingestPresence_hold_keep (st : Session) (now : ℚ)
    (hs : st.presence_state = true)
    (hh : now - st.presence_last_on_ms < st.presence_hold_ms) :
    ingestPresence st true now = st := by
  unfold ingestPresence
  rw [if_neg (by simp [hs]), if_neg (fun hc => absurd hc.2 (not_le.mpr hh))]

/-- A matching ON reading at or after hold expiry forces the state OFF and
stamps the change time. -/
lemma ingestPresence_hold_expire (st : Session) (now : ℚ)
    (hs : st.presence_state = true)
    (hh : st.presence_hold_ms ≤ now - st.presence_last_on_ms) :
    ingestPresence st true now =
      { st with presence_state := false, presence_last_change_ms := now } := by
  unfold ingestPresence
  rw [if_neg (by simp [hs]), if_pos ⟨hs, hh⟩]

/-- A matching OFF reading is a no-op. -/
lemma ingestPresence_off_noop (st : Session) (now : ℚ)
    (hs : st.presence_state = false) :
    ingestPresence st false now = st := by
  unfold ingestPresence
  rw [if_neg (by simp [hs]), if_neg (by simp [hs])]

/-- `deque(maxlen).append` in closed form: keep the newest `maxlen`
entries of the extended buffer (truncated subtraction makes the drop a
no-op while there is room). -/
lemma dequeAppend_eq_drop (w : ℕ) (xs : List ℚ) (v : ℚ) :
    dequeAppend w xs v = (xs ++ [v]).drop ((xs.length + 1) - w) := by
  have hl : (xs ++ [v]).length = xs.length + 1 := by simp
  unfold dequeAppend
  rw [hl]
  split
  · rfl
  · rw [Nat.sub_eq_zero_of_le (by omega), List.drop_zero]

/-- Folding `dequeAppend` over an input list keeps exactly the newest
`w` entries of everything seen, as long as the accumulator respects the
capacity. -/
lemma foldl_dequeAppend (w : ℕ) :
    ∀ (l acc : List ℚ), acc.length ≤ w →
      List.foldl (dequeAppend w) acc l = (acc ++ l).drop ((acc.length + l.length) - w) := by
  intro l
  induction l with
  | nil =>
    intro acc hacc
    simp [Nat.sub_eq_zero_of_le hacc]
  | cons v t ih =>
    intro acc hacc
    have hstep : dequeAppend w acc v = (acc ++ [v]).drop ((acc.length + 1) - w) :=
      dequeAppend_eq_drop w acc v
    have hlen : (dequeAppend w acc v).length ≤ w := by
      rw [hstep, List.length_drop]
      simp only [List.length_append, List.length_cons, List.length_nil]
      omega
    rw [List.foldl_cons, ih (dequeAppend w acc v) hlen, hstep]
    have hk : (acc.length + 1) - w ≤ (acc ++ [v]).length := by
      simp only [List.length_append, List.length_cons, List.length_nil]
      omega
    rw [← List.drop_append_of_le_length hk, List.drop_drop]
    have hlist : (acc ++ [v]) ++ t = acc ++ v :: t := by
      simp
    rw [hlist]
    congr 1
    rw [List.length_drop]
    simp only [List.length_append, List.length_cons, List.length_nil]
    omega

/-- The buffer built from an initially empty deque is exactly the newest
`w` input values. -/
lemma runSamples_eq_drop (w : ℕ) (vals : List ℚ) :
    runSamples w vals = vals.drop (vals.length - w) := by
  unfold runSamples
  rw [foldl_dequeAppend w vals [] (by simp)]
  simp

/-- C2 counterexample: with `debounceMillis = 300` and `holdMillis = 5000`,
an ON reading accepted at t = 1000 is turned OFF by an explicit OFF reading
at t = 1400, although only 400 ms < holdMillis have elapsed since the state
went on — so holdMillis is NOT enforced on an ON→OFF transition requested
by a conflicting `wantOn = false` reading. -/
theorem c2_counterexample :
    ingestPresence s0ex true 1000 = s1ex ∧
    (ingestPresence s1ex false 1400).presence_state = false ∧
    1400 - s1ex.presence_last_on_ms < s1ex.presence_hold_ms := by
  refine ⟨?_, ?_, ?_⟩ <;> norm_num [ingestPresence, s0ex, s1ex]

/-- C2 (amended): `holdMillis` is a minimum on-duration enforced only on
the autonomous Case-B transition triggered by a matching ON reading; an
explicit conflicting `wantOn = false` reading may turn presence OFF before
`holdMillis` has elapsed, subject only to the debounce window. -/
theorem c2_hold_only_matching (st : Session) (now : ℚ) :
    (st.presence_state = true → now - st.presence_last_on_ms < st.presence_hold_ms →
      ingestPresence st true now = st) ∧
    (st.presence_state = true →
      st.presence_debounce_ms ≤ now - st.presence_last_change_ms →
      (ingestPresence st false now).presence_state = false ∧
      (ingestPresence st false now).presence_last_change_ms = now) := by
  constructor
  · intro hs hh
    exact ingestPresence_hold_keep st now hs hh
  · intro hs hd
    rw [ingestPresence_conflict_accept st false now (by simp [hs]) hd]
    exact ⟨rfl, rfl⟩

/-- C2 witness: the amended statement applied at the concrete session
`s1ex` (ON since t = 1000) and an OFF reading at t = 1400. -/
theorem c2_witness :
    (ingestPresence s1ex false 1400).presence_state = false ∧
    (ingestPresence s1ex false 1400).presence_last_change_ms = 1400 :=
  (c2_hold_only_matching s1ex 1400).2 rfl (by norm_num [s1ex, s0ex])

/-- C5: a matching reading with the state ON forces the state OFF and
stamps the change time once the hold has expired, is a complete no-op
before expiry, and a matching reading with the state OFF is a no-op. -/
theorem c5_matching_reading (st : Session) (now : ℚ) :
    (st.presence_state = true → st.presence_hold_ms ≤ now - st.presence_last_on_ms →
      (ingestPresence st true now).presence_state = false ∧
      (ingestPresence st true now).presence_last_change_ms = now) ∧
    (st.presence_state = true → now - st.presence_last_on_ms < st.presence_hold_ms →
      (ingestPresence st true now).presence_state = true ∧
      ingestPresence st true now = st) ∧
    (st.presence_state = false → ingestPresence st false now = st) := by
  refine ⟨fun hs hh => ?_, fun hs hh => ?_, fun hs => ingestPresence_off_noop st now hs⟩
  · rw [ingestPresence_hold_expire st now hs hh]
    exact ⟨rfl, rfl⟩
  · rw [ingestPresence_hold_keep st now hs hh]
    exact ⟨hs, rfl⟩

/-- C5 witness: hold expiry at the concrete session `s1ex` (ON since
t = 1000, hold 5000) on a matching ON reading at t = 7000. -/
theorem c5_witness :
    (ingestPresence s1ex true 7000).presence_state = false ∧
    (ingestPresence s1ex true 7000).presence_last_change_ms = 7000 :=
  (c5_matching_reading s1ex 7000).1 rfl (by norm_num [s1ex, s0ex])

/-- C6: a conflicting reading is accepted exactly when the debounce window
has elapsed (updating state, change time, and — only for ON — the last-on
time), is a complete no-op otherwise, and two conflicting readings within
`debounceMillis` of each other produce at most one accepted transition. -/
theorem c6_debounce (st : Session) (wantOn : Bool) (now : ℚ)
    (hne : wantOn ≠ st.presence_state) :
    (st.presence_debounce_ms ≤ now - st.presence_last_change_ms →
      (ingestPresence st wantOn now).presence_state = wantOn ∧
      (ingestPresence st wantOn now).presence_last_change_ms = now ∧
      (wantOn = true → (ingestPresence st wantOn now).presence_last_on_ms = now) ∧
      (wantOn = false →
        (ingestPresence st wantOn now).presence_last_on_ms = st.presence_last_on_ms)) ∧
    (now - st.presence_last_change_ms < st.presence_debounce_ms →
      ingestPresence st wantOn now = st) ∧
    (∀ (w2 : Bool) (t2 : ℚ), t2 - now < st.presence_debounce_ms →
      w2 ≠ (ingestPresence st wantOn now).presence_state →
      ¬ ((ingestPresence st wantOn now).presence_state = wantOn ∧
         (ingestPresence (ingestPresence st wantOn now) w2 t2).presence_state = w2)) := by
  refine ⟨fun hd => ?_, fun hd => ingestPresence_conflict_drop st wantOn now hne hd, ?_⟩
  · rw [ingestPresence_conflict_accept st wantOn now hne hd]
    refine ⟨rfl, rfl, fun hw => ?_, fun hw => ?_⟩ <;> simp [hw]
  · intro w2 t2 hlt hne2 hboth
    by_cases hd : st.presence_debounce_ms ≤ now - st.presence_last_change_ms
    · have hacc := ingestPresence_conflict_accept st wantOn now hne hd
      have hdrop : ingestPresence (ingestPresence st wantOn now) w2 t2 =
          ingestPresence st wantOn now := by
        apply ingestPresence_conflict_drop _ _ _ hne2
        rw [hacc]
        simpa using hlt
      rw [hdrop] at hboth
      exact hne2 hboth.2.symm
    · rw [ingestPresence_conflict_drop st wantOn now hne (not_le.mp hd)] at hboth
      exact hne hboth.1.symm

/-- C6 witness: the debounce-elapsed branch at the fresh session `s0ex`
with an ON reading at t = 1000. -/
theorem c6_witness :
    (ingestPresence s0ex true 1000).presence_state = true ∧
    (ingestPresence s0ex true 1000).presence_last_change_ms = 1000 ∧
    (true = true → (ingestPresence s0ex true 1000).presence_last_on_ms = 1000) ∧
    (true = false →
      (ingestPresence s0ex true 1000).presence_last_on_ms = s0ex.presence_last_on_ms) :=
  (c6_debounce s0ex true 1000 (by norm_num [s0ex])).1 (by norm_num [s0ex])

/-- C9: every presence ingest invokes every registered observer exactly
once, in registration order, whatever the payload, the timestamp and the
state — including calls that do not change the state. -/
theorem c9_presence_always_notifies (st : Session) (payload : String) (now : ℚ) :
    (handle_presence st payload now).2 = st.listeners ∧
    ∀ o : ℕ, (handle_presence st payload now).2.count o = st.listeners.count o :=
  ⟨rfl, fun _ => rfl⟩

/-- C9 witness: a no-op payload still notifies the observers of `s0ex`. -/
theorem c9_witness : (handle_presence s0ex ("maybe") 50).2 = s0ex.listeners :=
  (c9_presence_always_notifies s0ex ("maybe") 50).1

/-- C1 counterexample: with `windowSize = 3`, `minDelta = 0.1`, ingesting
`"20.0"` twice from a fresh session publishes 20 on the first call; on the
second call the new average 20 stays within `minDelta` of the published
value (`lastPublishedTemp` does not move), yet every registered observer is
still invoked — refuting "observers are notified if and only if the publish
gate fired". -/
theorem c1_counterexample :
    (ingestTemperature s0ex ("20.0") ("")).1.last_published = some 20 ∧
    (ingestTemperature ((ingestTemperature s0ex ("20.0") ("")).1)
        ("20.0") ("")).1.last_temp_avg = some 20 ∧
    (ingestTemperature ((ingestTemperature s0ex ("20.0") ("")).1)
        ("20.0") ("")).1.last_published
      = (ingestTemperature s0ex ("20.0") ("")).1.last_published ∧
    (ingestTemperature ((ingestTemperature s0ex ("20.0") ("")).1)
        ("20.0") ("")).2 = s0ex.listeners ∧
    s0ex.listeners ≠ [] := by
  have h : decodeNumericRep ("20.0") ("") = some ⟨200, -1⟩ := by decide
  refine ⟨?_, ?_, ?_, ?_, by decide⟩ <;>
    norm_num [ingestTemperature, decodeNumeric, h, toRat, s0ex, dequeAppend, meanOf,
      nativeValueStep]

/-- C1 (amended): observers are notified exactly once per call that
successfully decodes a value, in registration order, regardless of whether
the publish gate fired; a call whose payload does not decode invokes no
observer. -/
theorem c1_notify_on_decode (st : Session) (payload jsonPath : String) :
    (ingestTemperature st payload jsonPath).2 =
      (if (decodeNumeric payload jsonPath).isSome then st.listeners else []) ∧
    ∀ o : ℕ, (ingestTemperature st payload jsonPath).2.count o =
      (if (decodeNumeric payload jsonPath).isSome then st.listeners.count o else 0) := by
  cases h : decodeNumeric payload jsonPath with
  | none => simp [ingestTemperature, h]
  | some v => simp [ingestTemperature, h]

/-- C1 witness: a non-decoding payload notifies nobody on `s0ex`. -/
theorem c1_witness :
    (ingestTemperature s0ex ("not a number") ("")).2 =
      (if (decodeNumeric ("not a number") ("")).isSome then s0ex.listeners else []) :=
  (c1_notify_on_decode s0ex ("not a number") ("")).1

/-- C3: on every ingest with a defined new average, the published value
advances to the new average when nothing was published yet or the change
reaches `minDelta`, is left unchanged when the change is below `minDelta`,
and with `minDelta = 0` every such ingest publishes. -/
theorem c3_publish_gate (st : Session) (payload jsonPath : String) (v : ℚ)
    (h : decodeNumeric payload jsonPath = some v) :
    (ingestTemperature st payload jsonPath).1.last_temp_avg = some (newAvgOf st v) ∧
    (st.last_published = none →
      (ingestTemperature st payload jsonPath).1.last_published = some (newAvgOf st v)) ∧
    (∀ l : ℚ, st.last_published = some l → st.temp_min_delta ≤ |newAvgOf st v - l| →
      (ingestTemperature st payload jsonPath).1.last_published = some (newAvgOf st v)) ∧
    (∀ l : ℚ, st.last_published = some l → |newAvgOf st v - l| < st.temp_min_delta →
      (ingestTemperature st payload jsonPath).1.last_published = st.last_published) ∧
    (st.temp_min_delta = 0 →
      (ingestTemperature st payload jsonPath).1.last_published = some (newAvgOf st v)) := by
  have hmain : (ingestTemperature st payload jsonPath).1 =
      { st with
          temp_samples := dequeAppend st.temp_window st.temp_samples v,
          last_temp_avg := some (newAvgOf st v),
          last_published :=
            (nativeValueStep st.last_published st.temp_min_delta (some (newAvgOf st v))).2 } := by
    simp [ingestTemperature, h, newAvgOf]
  rw [hmain]
  refine ⟨rfl, fun hlp => ?_, fun l hlp hge => ?_, fun l hlp hlt => ?_, fun h0 => ?_⟩
  · simp [nativeValueStep, hlp]
  · show (nativeValueStep st.last_published st.temp_min_delta (some (newAvgOf st v))).2
      = some (newAvgOf st v)
    rw [hlp]
    simp only [nativeValueStep]
    rw [if_pos hge]
  · show (nativeValueStep st.last_published st.temp_min_delta (some (newAvgOf st v))).2
      = st.last_published
    rw [hlp]
    simp only [nativeValueStep]
    rw [if_neg (not_le.mpr hlt)]
  · show (nativeValueStep st.last_published st.temp_min_delta (some (newAvgOf st v))).2
      = some (newAvgOf st v)
    cases hlp : st.last_published with
    | none => simp [nativeValueStep]
    | some l =>
      simp only [nativeValueStep]
      rw [if_pos (by rw [h0]; exact abs_nonneg _)]

/-- C3 witness: the first decoded ingest on the fresh session `s0ex`
publishes the new average. -/
theorem c3_witness :
    (ingestTemperature s0ex ("20.0") ("")).1.last_published = some (newAvgOf s0ex 20) :=
  (c3_publish_gate s0ex ("20.0") ("") 20 (by
      have h : decodeNumericRep ("20.0") ("") = some ⟨200, -1⟩ := by decide
      simp only [decodeNumeric, h, Option.map_some']
      norm_num [toRat])).2.1 rfl

/-- C4: the buffer always holds at most `windowSize` samples, is exactly
the most recent `min(n, windowSize)` of the `n` values ingested so far
(strict FIFO eviction), its mean is the mean of those samples, and each
successful ingest appends via the deque and stores that mean in
`lastComputedAvg`. -/
theorem c4_window_and_mean (w : ℕ) (vals : List ℚ) (st : Session)
    (payload jsonPath : String) (v : ℚ)
    (h : decodeNumeric payload jsonPath = some v) :
    (runSamples w vals).length = min vals.length w ∧
    (runSamples w vals).length ≤ w ∧
    runSamples w vals = vals.drop (vals.length - w) ∧
    meanOf (runSamples w vals) =
      (vals.drop (vals.length - w)).sum / ((min vals.length w : ℕ) : ℚ) ∧
    (ingestTemperature st payload jsonPath).1.temp_samples =
      dequeAppend st.temp_window st.temp_samples v ∧
    (ingestTemperature st payload jsonPath).1.last_temp_avg =
      some (meanOf (dequeAppend st.temp_window st.temp_samples v)) := by
  have hdrop := runSamples_eq_drop w vals
  have hlen : (runSamples w vals).length = min vals.length w := by
    rw [hdrop, List.length_drop]
    omega
  have hlen2 : (vals.drop (vals.length - w)).length = min vals.length w := by
    rw [List.length_drop]
    omega
  refine ⟨hlen, ?_, hdrop, ?_, ?_, ?_⟩
  · rw [hlen]
    exact Nat.min_le_right _ _
  · simp only [meanOf, hdrop, hlen2]
  · simp [ingestTemperature, h]
  · simp [ingestTemperature, h, meanOf]

/-- C4 witness: a window of 2 over the inputs 1, 2, 3 keeps exactly the
two newest samples. -/
theorem c4_witness :
    runSamples 2 [1, 2, 3] = ([1, 2, 3] : List ℚ).drop (([1, 2, 3] : List ℚ).length - 2) :=
  (c4_window_and_mean 2 [1, 2, 3] s0ex ("20.0") ("") 20 (by
      have h : decodeNumericRep ("20.0") ("") = some ⟨200, -1⟩ := by decide
      simp only [decodeNumeric, h, Option.map_some']
      norm_num [toRat])).2.2.1

/-- C8: a temperature payload on which the decoder returns Absent leaves
the whole session state exactly as it was and invokes no observer. -/
theorem c8_absent_untouched (st : Session) (payload jsonPath : String)
    (h : decodeNumeric payload jsonPath = none) :
    ingestTemperature st payload jsonPath = (st, []) := by
  simp [ingestTemperature, h]

/-- C8 witness: the unparseable payload of the spec's decoder scenario
leaves `s0ex` untouched. -/
theorem c8_witness : ingestTemperature s0ex ("not a number") ("") = (s0ex, []) :=
  c8_absent_untouched s0ex ("not a number") ("") (by
    have h : decodeNumericRep ("not a number") ("") = none := by decide
    simp [decodeNumeric, h])

/-- C7: the decoder tries, in order with first success winning, a direct
float parse of the trimmed payload, then a JSON object's top-level
`"value"` field, then the non-empty dot path through nested JSON objects;
and on the spec's concrete scenarios it yields 23.4, 21.7, 19.2 and
Absent respectively. -/
theorem c7_decode_order :
    (∀ (payload jsonPath : String) (d : DecNum),
      pyFloatRepList? (pyTrim payload.data) = some d →
      decodeNumeric payload jsonPath = some (toRat d)) ∧
    (∀ (payload jsonPath : String) (fields : List (String × Json)) (v : Json) (d : DecNum),
      pyFloatRepList? (pyTrim payload.data) = none →
      jsonLoads (pyTrim payload.data) = some (Json.obj fields) →
      jget fields ("value") = some v →
      pyFloatOfJson v = some d →
      decodeNumeric payload jsonPath = some (toRat d)) ∧
    (∀ (payload jsonPath : String) (fields : List (String × Json)) (v : Json) (d : DecNum),
      pyFloatRepList? (pyTrim payload.data) = none →
      jsonLoads (pyTrim payload.data) = some (Json.obj fields) →
      jget fields ("value") = none →
      jsonPath.data ≠ [] →
      extract_by_path (Json.obj fields) jsonPath = some v →
      v ≠ Json.null →
      pyFloatOfJson v = some d →
      decodeNumeric payload jsonPath = some (toRat d)) ∧
    decodeNumeric ("23.4") ("") = some (117 / 5) ∧
    decodeNumeric ("\x7b\"value\": 21.7\x7d") ("") = some (217 / 10) ∧
    decodeNumeric ("\x7b\"BMP280\":\x7b\"Temperature\": 19.2\x7d\x7d") ("BMP280.Temperature")
      = some (96 / 5) ∧
    decodeNumeric ("not a number") ("") = none := by
  refine ⟨?_, ?_, ?_, ?_, ?_, ?_, ?_⟩
  · intro payload jsonPath d hf
    simp [decodeNumeric, decodeNumericRep, hf]
  · intro payload jsonPath fields v d hf hj hv hd
    simp [decodeNumeric, decodeNumericRep, hf, hj, hv, hd]
  · intro payload jsonPath fields v d hf hj hv hp hx hnull hd
    have hpe : jsonPath.data.isEmpty = false := by
      cases hd2 : jsonPath.data with
      | nil => exact absurd hd2 hp
      | cons a t => rfl
    simp only [decodeNumeric, decodeNumericRep, hf, hj, hv, hpe, Bool.false_eq_true,
      if_false, hx]
    cases v with
    | null => exact absurd rfl hnull
    | bool b => simp [hd]
    | num dd => simp [hd]
    | str s => simp [hd]
    | arr es => simp [hd]
    | obj fs => simp [hd]
  · have h : decodeNumericRep ("23.4") ("") = some ⟨234, -1⟩ := by decide
    simp only [decodeNumeric, h, Option.map_some']
    norm_num [toRat]
  · have h : decodeNumericRep ("\x7b\"value\": 21.7\x7d") ("") = some ⟨217, -1⟩ := by
      decide
    simp only [decodeNumeric, h, Option.map_some']
    norm_num [toRat]
  · have h : decodeNumericRep ("\x7b\"BMP280\":\x7b\"Temperature\": 19.2\x7d\x7d")
        ("BMP280.Temperature") = some ⟨192, -1⟩ := by decide
    simp only [decodeNumeric, h, Option.map_some']
    norm_num [toRat]
  · have h : decodeNumericRep ("not a number") ("") = none := by decide
    simp [decodeNumeric, h]

/-- C7 witness: the first-stage direct float parse applied to the payload
`"23.4"`. -/
theorem c7_witness : decodeNumeric ("23.4") ("") = some (toRat ⟨234, -1⟩) :=
  c7_decode_order.1 ("23.4") ("") ⟨234, -1⟩ (by decide)

/-- C10: when the payload is a JSON object containing a `"value"` key whose
field does not convert to a float, the whole decode returns Absent without
attempting the dot-path fallback (the `float` failure raises out of the
`try:` block), even when the path names a valid number in the same
object. -/
theorem c10_value_shadows_path :
    (∀ (payload jsonPath : String) (fields : List (String × Json)) (v : Json),
      pyFloatRepList? (pyTrim payload.data) = none →
      jsonLoads (pyTrim payload.data) = some (Json.obj fields) →
      jget fields ("value") = some v →
      pyFloatOfJson v = none →
      decodeNumeric payload jsonPath = none) ∧
    decodeNumeric ("\x7b\"value\": \"oops\", \"BMP280\": \x7b\"Temperature\": 19.2\x7d\x7d")
      ("BMP280.Temperature") = none := by
  constructor
  · intro payload jsonPath fields v hf hj hv hd
    simp [decodeNumeric, decodeNumericRep, hf, hj, hv, hd]
  · have h : decodeNumericRep
        ("\x7b\"value\": \"oops\", \"BMP280\": \x7b\"Temperature\": 19.2\x7d\x7d")
        ("BMP280.Temperature") = none := by decide
    simp [decodeNumeric, h]

/-- C10 witness: a `"value"` field holding a JSON array (on which `float`
raises) makes the decode Absent although a dot path is configured. -/
theorem c10_witness :
    decodeNumeric ("\x7b\"value\": []\x7d") ("BMP280.Temperature") = none :=
  c10_value_shadows_path.1 ("\x7b\"value\": []\x7d") ("BMP280.Temperature")
    [(("value"), Json.arr [])] (Json.arr []) (by decide) (by rfl) (by rfl) (by rfl)

end DualMeasurement
